import Mathlib

/-!
Verification of the time-value core of `unix-clock` (`src/raw.rs`).

The Rust code is shallowly embedded: `i64` values are `Int` together with
range hypotheses `i64Min ≤ x ∧ x ≤ i64Max`, `u32`/`u64` values are `Nat`
with explicit `% 2^32` / `% 2^64` where the machine arithmetic may wrap
(release-mode two's-complement semantics), and fallible operations return
`Option`.  `Result<Duration, Duration>` is embedded as
`Except Duration Duration` (`Ok` = `Except.ok`, `Err` = `Except.error`).
-/

namespace UnixClock

/-- `const NSEC_PER_SEC: u64 = 1_000_000_000` from `raw.rs`. -/
def NSEC_PER_SEC : Nat := 1000000000

/-- `const I64_MAX: u64 = 9_223_372_036_854_775_807` from `raw.rs`. -/
def I64_MAX : Nat := 9223372036854775807

/-- Smallest `i64` value. -/
def i64Min : Int := -9223372036854775808

/-- Largest `i64` value. -/
def i64Max : Int := 9223372036854775807

/-- `u32` wrapping addition (release-mode `+` on `u32`). -/
def u32add (a b : Nat) : Nat := (a + b) % 4294967296

/-- `u32` wrapping subtraction (release-mode `-` on `u32`); assumes the
arguments are `u32`-representable. -/
def u32sub (a b : Nat) : Nat := (a + 4294967296 - b) % 4294967296

/-- Wrap an integer into the `i32` range (two's complement). -/
def wrapI32 (x : Int) : Int := (x + 2147483648) % 4294967296 - 2147483648

/-- The cast `u32 as i32` (bit reinterpretation) on a `u32`-representable
natural number. -/
def i32ofU32 (n : Nat) : Int := wrapI32 (n : Int)

/-- The cast `i32 as u32` (bit reinterpretation). -/
def u32ofI32 (x : Int) : Nat := (x % 4294967296).toNat

/-- `Ord::cmp` on a machine integer embedded in `Int`. -/
def intCmp (a b : Int) : Ordering :=
  if a < b then .lt else if a = b then .eq else .gt

/-- `Ord::cmp` on a machine unsigned integer embedded in `Nat`. -/
def natCmp (a b : Nat) : Ordering :=
  if a < b then .lt else if a = b then .eq else .gt

/-- The `Timespec` struct of `raw.rs`: `tv_sec: i64`, `tv_nsec: u32`, plus a
padding word (`__padding: i32`) whose position depends on endianness and
whose value is irrelevant to the semantic operations. -/
structure Timespec where
  tv_sec : Int
  tv_nsec : Nat
  __padding : Int
deriving Repr, DecidableEq

/-- `Timespec::new(secs, nsecs)`: plain construction, zeroed padding, no
validation of the nanosecond range. -/
def Timespec.new (secs : Int) (nsecs : Nat) : Timespec :=
  { tv_sec := secs, tv_nsec := nsecs, __padding := 0 }

/-- `Timespec::secs`. -/
def Timespec.secs (t : Timespec) : Int := t.tv_sec

/-- `Timespec::nsecs`. -/
def Timespec.nsecs (t : Timespec) : Nat := t.tv_nsec

/-- `Timespec::zero()`. -/
def Timespec.zero : Timespec := Timespec.new 0 0

/-- `Timespec::seconds` (alias of `secs`). -/
def Timespec.seconds (t : Timespec) : Int := t.secs

/-- `Timespec::nanosecs` (alias of `nsecs`). -/
def Timespec.nanosecs (t : Timespec) : Nat := t.nsecs

/-- `Timespec::nanoseconds` (alias of `nsecs`). -/
def Timespec.nanoseconds (t : Timespec) : Nat := t.nsecs

/-- The `PartialEq` impl: `self.secs() == other.secs() && self.nsecs() ==
other.nsecs()`.  Padding is not compared. -/
def Timespec.eq (a b : Timespec) : Bool :=
  a.secs == b.secs && a.nsecs == b.nsecs

/-- The `Ord` impl: compare seconds, then nanoseconds. -/
def Timespec.cmp (a b : Timespec) : Ordering :=
  match intCmp a.secs b.secs with
  | .eq => natCmp a.nsecs b.nsecs
  | o => o

/-- The `PartialOrd` impl (`partial_cmp`): on `i64`/`u32` fields the inner
comparisons never return `None`, so this is `some` of the lexicographic
comparison, exactly as the source's early-return structure computes it. -/
def Timespec.pcmp (a b : Timespec) : Option Ordering :=
  match intCmp a.secs b.secs with
  | .eq => some (natCmp a.nsecs b.nsecs)
  | o => some o

/-- Rust `self >= other` via `PartialOrd`: `partial_cmp` is `Greater` or
`Equal`. -/
def Timespec.ge (a b : Timespec) : Bool :=
  match a.pcmp b with
  | some .gt => true
  | some .eq => true
  | _ => false

/-- Rust `self < other` via `PartialOrd`: `partial_cmp` is `Less`. -/
def Timespec.ltb (a b : Timespec) : Bool :=
  match a.pcmp b with
  | some .lt => true
  | _ => false

/-- The `Hash` impl feeds exactly `self.secs()` then `self.nsecs()` to the
hasher; this is the sequence of words the hasher receives. -/
def Timespec.hashFeed (t : Timespec) : List Int :=
  [t.secs, (t.nsecs : Int)]

/-- `core::time::Duration`: `secs: u64`, `nanos: u32` with `nanos <
NSEC_PER_SEC` for values built by `Duration::new`. -/
structure Duration where
  secs : Nat
  nanos : Nat
deriving Repr, DecidableEq

/-- `Duration::new(secs, nanos)`: normalizes `nanos ≥ 1e9` by carrying whole
seconds.  (Rust panics when the carried seconds overflow `u64`; every use
below passes `nanos < NSEC_PER_SEC`, so the carry is zero and the panic is
unreachable.) -/
def Duration.new (s n : Nat) : Duration :=
  { secs := s + n / NSEC_PER_SEC, nanos := n % NSEC_PER_SEC }

/-- `Duration::as_secs`. -/
def Duration.as_secs (d : Duration) : Nat := d.secs

/-- `Duration::subsec_nanos`. -/
def Duration.subsec_nanos (d : Duration) : Nat := d.nanos

/-- Total magnitude of a `Duration` in nanoseconds. -/
def Duration.totalNanos (d : Duration) : Nat := d.secs * NSEC_PER_SEC + d.nanos

/-- Total value of a `Timespec` in nanoseconds (signed). -/
def Timespec.totalNanos (t : Timespec) : Int :=
  t.tv_sec * (NSEC_PER_SEC : Int) + (t.tv_nsec : Int)

/-- The `self >= other` branch of `Timespec::sub_timespec`: the seconds
difference is computed in wrapping `i64` and cast to `u64` (together:
mod `2^64`), the nanosecond difference in `u32`, borrowing one second when
`self.nsecs() < other.nsecs()`. -/
def Timespec.subMag (a b : Timespec) : Duration :=
  if b.nsecs ≤ a.nsecs then
    Duration.new ((a.secs - b.secs) % 18446744073709551616).toNat
      (a.nsecs - b.nsecs)
  else
    Duration.new ((a.secs - b.secs - 1) % 18446744073709551616).toNat
      (u32sub (u32add a.nsecs NSEC_PER_SEC) b.nsecs)

/-- `Timespec::sub_timespec` with explicit recursion fuel: the source
recurses once into `other.sub_timespec(self)` when `self < other` and swaps
the result.  `none` marks fuel exhaustion (never reached with fuel 2, see
claim C10). -/
def Timespec.subAux : Nat → Timespec → Timespec → Option (Except Duration Duration)
  | 0, _, _ => none
  | fuel + 1, a, b =>
    if a.ge b then
      some (.ok (a.subMag b))
    else
      match Timespec.subAux fuel b a with
      | some (.ok d) => some (.error d)
      | some (.error d) => some (.ok d)
      | none => none

/-- `Timespec::sub_timespec(self, other)`. -/
def Timespec.sub_timespec (a b : Timespec) : Option (Except Duration Duration) :=
  Timespec.subAux 2 a b

/-- `i64::checked_add`. -/
def checked_add_i64 (a b : Int) : Option Int :=
  if i64Min ≤ a + b ∧ a + b ≤ i64Max then some (a + b) else none

/-- `i64::checked_sub`. -/
def checked_sub_i64 (a b : Int) : Option Int :=
  if i64Min ≤ a - b ∧ a - b ≤ i64Max then some (a - b) else none

/-- The local `checked_add_unsigned(a: i64, b: u64)` helper of
`checked_add_duration`: rejects `b > I64_MAX`, then `i64::checked_add`. -/
def checked_add_unsigned (a : Int) (b : Nat) : Option Int :=
  if b > I64_MAX then none else checked_add_i64 a (b : Int)

/-- The local `checked_sub_unsigned(a: i64, b: u64)` helper of
`checked_sub_duration`: rejects `b > I64_MAX`, then `i64::checked_sub`. -/
def checked_sub_unsigned (a : Int) (b : Nat) : Option Int :=
  if b > I64_MAX then none else checked_sub_i64 a (b : Int)

/-- `Timespec::checked_add_duration`. -/
def Timespec.checked_add_duration (t : Timespec) (other : Duration) : Option Timespec :=
  match checked_add_unsigned t.secs other.as_secs with
  | none => none
  | some secs =>
    let nsecs := u32add other.subsec_nanos t.nsecs
    if NSEC_PER_SEC ≤ nsecs then
      match checked_add_i64 secs 1 with
      | none => none
      | some secs2 => some (Timespec.new secs2 (nsecs - NSEC_PER_SEC))
    else
      some (Timespec.new secs nsecs)

/-- `Timespec::checked_sub_duration`.  `self.nsecs() as i32 -
other.subsec_nanos() as i32` is wrapping `i32` arithmetic; the final
`nsecs as u32` is a bit reinterpretation. -/
def Timespec.checked_sub_duration (t : Timespec) (other : Duration) : Option Timespec :=
  match checked_sub_unsigned t.secs other.as_secs with
  | none => none
  | some secs =>
    let nsecs : Int := wrapI32 (i32ofU32 t.nsecs - i32ofU32 other.subsec_nanos)
    if nsecs < 0 then
      match checked_sub_i64 secs 1 with
      | none => none
      | some secs2 => some (Timespec.new secs2 (u32ofI32 (wrapI32 (nsecs + (NSEC_PER_SEC : Int)))))
    else
      some (Timespec.new secs (u32ofI32 nsecs))

/-- `const UNINIT: *mut c_void = null`: the unresolved cache encoding. -/
def UNINIT : Nat := 0

/-- `const INIT_NULL: *mut c_void = 1`: the resolved-absent sentinel. -/
def INIT_NULL : Nat := 1

/-- Initial value of the `CLOCK_GETTIME_VSYSCALL` static (`AtomicPtr::new(null)`). -/
def CLOCK_GETTIME_VSYSCALL_INIT : Nat := 0

/-- One call of `clock_gettime_vsyscall` as a step of a state machine:
`vdsoAddr` is the (process-invariant) address the vDSO lookup yields (`0` =
null, i.e. symbol absent), `cache` is the current value of the atomic slot.
Returns the new slot value and the answer (`none` = no fast path, `some p` =
the resolved entry point's address). -/
def clock_gettime_vsyscall (vdsoAddr : Nat) (cache : Nat) : Nat × Option Nat :=
  if cache = UNINIT then
    if vdsoAddr = 0 then (INIT_NULL, none)
    else (vdsoAddr, some vdsoAddr)
  else if cache = INIT_NULL then (cache, none)
  else (cache, some cache)

/-! ### Helper lemmas -/

theorem Timespec.eq_iff (a b : Timespec) :
    Timespec.eq a b = true ↔ a.tv_sec = b.tv_sec ∧ a.tv_nsec = b.tv_nsec := by
  simp [Timespec.eq, Timespec.secs, Timespec.nsecs]

theorem Timespec.ge_iff (a b : Timespec) :
    a.ge b = true ↔
      b.tv_sec < a.tv_sec ∨ (a.tv_sec = b.tv_sec ∧ b.tv_nsec ≤ a.tv_nsec) := by
  simp only [Timespec.ge, Timespec.pcmp, Timespec.secs, Timespec.nsecs, intCmp, natCmp]
  split_ifs <;> simp <;> omega

theorem Timespec.ltb_iff (a b : Timespec) :
    a.ltb b = true ↔
      a.tv_sec < b.tv_sec ∨ (a.tv_sec = b.tv_sec ∧ a.tv_nsec < b.tv_nsec) := by
  simp only [Timespec.ltb, Timespec.pcmp, Timespec.secs, Timespec.nsecs, intCmp, natCmp]
  split_ifs <;> simp <;> omega

theorem Timespec.ge_total (a b : Timespec) (h : a.ge b = false) : b.ge a = true := by
  rw [Timespec.ge_iff]
  rw [← Bool.not_eq_true, Timespec.ge_iff] at h
  omega

theorem Timespec.ge_antisymm (a b : Timespec) (hab : a.ge b = true)
    (hba : b.ge a = true) : a.tv_sec = b.tv_sec ∧ a.tv_nsec = b.tv_nsec := by
  rw [Timespec.ge_iff] at hab hba
  omega

theorem Duration.new_totalNanos (s n : Nat) :
    (Duration.new s n).totalNanos = s * NSEC_PER_SEC + n := by
  simp only [Duration.new, Duration.totalNanos, NSEC_PER_SEC]
  omega

/-- Exactness of the `self >= other` branch of `sub_timespec`: under `i64`
representability of the seconds, validity of the nanosecond fields and the
lexicographic order hypothesis, the computed magnitude is the exact
difference in nanoseconds. -/
theorem Timespec.subMag_spec (a b : Timespec)
    (ha1 : i64Min ≤ a.tv_sec) (ha2 : a.tv_sec ≤ i64Max)
    (hb1 : i64Min ≤ b.tv_sec) (hb2 : b.tv_sec ≤ i64Max)
    (han : a.tv_nsec < NSEC_PER_SEC) (hbn : b.tv_nsec < NSEC_PER_SEC)
    (hge : b.tv_sec < a.tv_sec ∨ (a.tv_sec = b.tv_sec ∧ b.tv_nsec ≤ a.tv_nsec)) :
    ((a.subMag b).totalNanos : Int) = a.totalNanos - b.totalNanos ∧
      (a.subMag b).subsec_nanos < NSEC_PER_SEC := by
  simp only [i64Min, i64Max, NSEC_PER_SEC] at *
  simp only [Timespec.subMag, Timespec.nsecs, Timespec.secs, Timespec.totalNanos,
    u32add, u32sub, NSEC_PER_SEC, Duration.subsec_nanos, Duration.new,
    Duration.totalNanos]
  split_ifs with h <;> dsimp only <;> omega

theorem Timespec.subAux_of_ge (fuel : Nat) (a b : Timespec) (h : a.ge b = true) :
    Timespec.subAux (fuel + 1) a b = some (.ok (a.subMag b)) := by
  simp [Timespec.subAux, h]

theorem Timespec.sub_eval_ge (a b : Timespec) (h : a.ge b = true) :
    a.sub_timespec b = some (.ok (a.subMag b)) :=
  Timespec.subAux_of_ge 1 a b h

theorem Timespec.sub_eval_lt (a b : Timespec) (h : a.ge b = false) :
    a.sub_timespec b = some (.error (b.subMag a)) := by
  have hba := Timespec.ge_total a b h
  simp [Timespec.sub_timespec, Timespec.subAux, h, hba]

theorem Timespec.subMag_self_eq (a b : Timespec) (hs : a.tv_sec = b.tv_sec)
    (hn : a.tv_nsec = b.tv_nsec) : a.subMag b = Duration.new 0 0 := by
  simp [Timespec.subMag, Timespec.secs, Timespec.nsecs, hs, hn]

/-! ### Claims -/

/-- Claim C8: `Timespec::new(s, n)` round-trips through all five accessors
(`secs`, `seconds`, `nsecs`, `nanosecs`, `nanoseconds`) for every seconds
value and every `u32` nanosecond value; `new` performs no validation of the
nanosecond range. -/
theorem claim_C8_new_roundtrip (s : Int) (n : Nat) :
    (Timespec.new s n).secs = s ∧ (Timespec.new s n).seconds = s ∧
      (Timespec.new s n).nsecs = n ∧ (Timespec.new s n).nanosecs = n ∧
      (Timespec.new s n).nanoseconds = n :=
  ⟨rfl, rfl, rfl, rfl, rfl⟩

/-- Claim C7: ordering, equality and hashing are determined purely by the
pair (seconds, nanoseconds): `<` is lexicographic on the two fields, `==`
is field equality, and the data fed to the hasher ignores the padding
word. -/
theorem claim_C7_order_eq_hash (a b : Timespec) :
    (a.ltb b = true ↔
       a.tv_sec < b.tv_sec ∨ (a.tv_sec = b.tv_sec ∧ a.tv_nsec < b.tv_nsec)) ∧
      (Timespec.eq a b = true ↔ a.tv_sec = b.tv_sec ∧ a.tv_nsec = b.tv_nsec) ∧
      (∀ p : Int, Timespec.hashFeed { a with __padding := p } = Timespec.hashFeed a) :=
  ⟨Timespec.ltb_iff a b, Timespec.eq_iff a b, fun _ => rfl⟩

/-- Claim C1: antisymmetry of `sub_timespec`.  For unequal `A`, `B` (in the
`PartialEq` sense, which compares the two semantic fields),
`A.sub_timespec(B) = Ok(d)` exactly when `B.sub_timespec(A) = Err(d)` with
the same magnitude `d`; when `A == B` both calls return `Ok` of the zero
duration. -/
theorem claim_C1_sub_timespec_antisymm (a b : Timespec) (d : Duration) :
    (Timespec.eq a b = false →
      (a.sub_timespec b = some (.ok d) ↔ b.sub_timespec a = some (.error d))) ∧
      (Timespec.eq a b = true →
        a.sub_timespec b = some (.ok (Duration.new 0 0)) ∧
          b.sub_timespec a = some (.ok (Duration.new 0 0))) := by
  constructor
  · intro hne
    cases hab : a.ge b
    · have hba := Timespec.ge_total a b hab
      rw [Timespec.sub_eval_lt a b hab, Timespec.sub_eval_ge b a hba]
      simp
    · cases hba : b.ge a
      · rw [Timespec.sub_eval_ge a b hab, Timespec.sub_eval_lt b a hba]
        simp
      · obtain ⟨hs, hn⟩ := Timespec.ge_antisymm a b hab hba
        rw [← Bool.not_eq_true, Timespec.eq_iff] at hne
        exact absurd ⟨hs, hn⟩ hne
  · intro heq
    rw [Timespec.eq_iff] at heq
    obtain ⟨hs, hn⟩ := heq
    have hab : a.ge b = true := by
      rw [Timespec.ge_iff]; omega
    have hba : b.ge a = true := by
      rw [Timespec.ge_iff]; omega
    rw [Timespec.sub_eval_ge a b hab, Timespec.sub_eval_ge b a hba,
      Timespec.subMag_self_eq a b hs hn, Timespec.subMag_self_eq b a hs.symm hn.symm]
    exact ⟨rfl, rfl⟩

/-- Witness for C1 at `A = (5, 100)`, `B = (3, 200)` (unequal pair) and at
`A = B = (2, 7)` (equal pair). -/
theorem claim_C1_witness :
    (((Timespec.new 5 100).sub_timespec (Timespec.new 3 200) =
        some (.ok ((Timespec.new 5 100).subMag (Timespec.new 3 200))) ↔
      (Timespec.new 3 200).sub_timespec (Timespec.new 5 100) =
        some (.error ((Timespec.new 5 100).subMag (Timespec.new 3 200))))) ∧
      ((Timespec.new 2 7).sub_timespec (Timespec.new 2 7) =
          some (.ok (Duration.new 0 0)) ∧
        (Timespec.new 2 7).sub_timespec (Timespec.new 2 7) =
          some (.ok (Duration.new 0 0))) :=
  ⟨(claim_C1_sub_timespec_antisymm (Timespec.new 5 100) (Timespec.new 3 200)
      ((Timespec.new 5 100).subMag (Timespec.new 3 200))).1 (by decide),
    (claim_C1_sub_timespec_antisymm (Timespec.new 2 7) (Timespec.new 2 7)
      (Duration.new 0 0)).2 (by decide)⟩

/-- Claim C2: sign and exactness of `sub_timespec` for `i64`-representable
seconds and valid nanosecond fields: there is a magnitude `d`, exactly the
absolute difference of the two total nanosecond values, returned as `Ok d`
precisely when `A ≥ B` lexicographically and as `Err d` precisely when
`A < B`. -/
theorem claim_C2_sub_timespec_exact (a b : Timespec)
    (ha1 : i64Min ≤ a.tv_sec) (ha2 : a.tv_sec ≤ i64Max)
    (hb1 : i64Min ≤ b.tv_sec) (hb2 : b.tv_sec ≤ i64Max)
    (han : a.tv_nsec < NSEC_PER_SEC) (hbn : b.tv_nsec < NSEC_PER_SEC) :
    ∃ d : Duration,
      (d.totalNanos : Int) = (a.totalNanos - b.totalNanos).natAbs ∧
        (a.sub_timespec b = some (.ok d) ↔
          b.tv_sec < a.tv_sec ∨ (a.tv_sec = b.tv_sec ∧ b.tv_nsec ≤ a.tv_nsec)) ∧
        (a.sub_timespec b = some (.error d) ↔
          a.tv_sec < b.tv_sec ∨ (a.tv_sec = b.tv_sec ∧ a.tv_nsec < b.tv_nsec)) := by
  cases hab : a.ge b
  · have hba := Timespec.ge_total a b hab
    have hnge : ¬(b.tv_sec < a.tv_sec ∨ (a.tv_sec = b.tv_sec ∧ b.tv_nsec ≤ a.tv_nsec)) := by
      rw [← Timespec.ge_iff a b, hab]
      simp
    refine ⟨b.subMag a, ?_, ?_, ?_⟩
    · have hge := (Timespec.ge_iff b a).mp hba
      have := Timespec.subMag_spec b a hb1 hb2 ha1 ha2 hbn han hge
      simp only [Timespec.totalNanos, NSEC_PER_SEC] at *
      omega
    · rw [Timespec.sub_eval_lt a b hab]
      simp only [Option.some.injEq, reduceCtorEq, false_iff]
      omega
    · rw [Timespec.sub_eval_lt a b hab]
      simp only [Option.some.injEq, Except.error.injEq, true_iff]
      omega
  · have hge := (Timespec.ge_iff a b).mp hab
    refine ⟨a.subMag b, ?_, ?_, ?_⟩
    · have := Timespec.subMag_spec a b ha1 ha2 hb1 hb2 han hbn hge
      simp only [Timespec.totalNanos, NSEC_PER_SEC] at *
      omega
    · rw [Timespec.sub_eval_ge a b hab]
      simp only [Option.some.injEq, Except.ok.injEq, true_iff]
      omega
    · rw [Timespec.sub_eval_ge a b hab]
      simp only [Option.some.injEq, reduceCtorEq, false_iff]
      omega

/-- Witness for C2 at `A = (5, 100)`, `B = (3, 200)`. -/
theorem claim_C2_witness :
    ∃ d : Duration,
      (d.totalNanos : Int) =
          ((Timespec.new 5 100).totalNanos - (Timespec.new 3 200).totalNanos).natAbs ∧
        ((Timespec.new 5 100).sub_timespec (Timespec.new 3 200) = some (.ok d) ↔
          (Timespec.new 3 200).tv_sec < (Timespec.new 5 100).tv_sec ∨
            ((Timespec.new 5 100).tv_sec = (Timespec.new 3 200).tv_sec ∧
              (Timespec.new 3 200).tv_nsec ≤ (Timespec.new 5 100).tv_nsec)) ∧
        ((Timespec.new 5 100).sub_timespec (Timespec.new 3 200) = some (.error d) ↔
          (Timespec.new 5 100).tv_sec < (Timespec.new 3 200).tv_sec ∨
            ((Timespec.new 5 100).tv_sec = (Timespec.new 3 200).tv_sec ∧
              (Timespec.new 5 100).tv_nsec < (Timespec.new 3 200).tv_nsec)) :=
  claim_C2_sub_timespec_exact (Timespec.new 5 100) (Timespec.new 3 200)
    (by decide) (by decide) (by decide) (by decide) (by decide) (by decide)

/-- Claim C10: in `sub_timespec`, when `self < other` the recursive call
`other.sub_timespec(self)` runs under `other >= self` and returns `Ok`
without recursing further (the `Err => Ok` arm of the inner match is
unreachable), so fuel 1 suffices for the inner call, any fuel of at least 2
computes `sub_timespec`, and the function is total. -/
theorem claim_C10_recursion_depth_one (a b : Timespec) :
    (a.ge b = false →
      Timespec.subAux 1 b a = some (.ok (b.subMag a)) ∧
        a.sub_timespec b = some (.error (b.subMag a))) ∧
      (∀ n : Nat, Timespec.subAux (n + 2) a b = a.sub_timespec b) ∧
      a.sub_timespec b ≠ none := by
  refine ⟨?_, ?_, ?_⟩
  · intro h
    exact ⟨Timespec.subAux_of_ge 0 b a (Timespec.ge_total a b h),
      Timespec.sub_eval_lt a b h⟩
  · intro n
    cases hab : a.ge b
    · have hba := Timespec.ge_total a b hab
      rw [Timespec.sub_eval_lt a b hab]
      simp [Timespec.subAux, hab, hba]
    · rw [Timespec.sub_eval_ge a b hab]
      exact Timespec.subAux_of_ge (n + 1) a b hab
  · cases hab : a.ge b
    · rw [Timespec.sub_eval_lt a b hab]
      simp
    · rw [Timespec.sub_eval_ge a b hab]
      simp

/-- Witness for C10 at `A = (0, 0) < B = (1, 0)`. -/
theorem claim_C10_witness :
    Timespec.subAux 1 (Timespec.new 1 0) (Timespec.new 0 0) =
        some (.ok ((Timespec.new 1 0).subMag (Timespec.new 0 0))) ∧
      (Timespec.new 0 0).sub_timespec (Timespec.new 1 0) =
        some (.error ((Timespec.new 1 0).subMag (Timespec.new 0 0))) :=
  (claim_C10_recursion_depth_one (Timespec.new 0 0) (Timespec.new 1 0)).1 (by decide)

theorem wrapI32_small (x : Int) (h1 : -2147483648 ≤ x) (h2 : x < 2147483648) :
    wrapI32 x = x := by
  simp only [wrapI32]
  omega

theorem i32ofU32_small (n : Nat) (h : n < 2147483648) : i32ofU32 n = (n : Int) := by
  simp only [i32ofU32, wrapI32]
  omega

theorem checked_add_unsigned_eq (a : Int) (b : Nat) :
    checked_add_unsigned a b =
      if b ≤ I64_MAX ∧ i64Min ≤ a + b ∧ a + b ≤ i64Max then some (a + b) else none := by
  simp only [checked_add_unsigned, checked_add_i64, I64_MAX, i64Min, i64Max]
  split_ifs <;> first | rfl | omega

theorem checked_sub_unsigned_eq (a : Int) (b : Nat) :
    checked_sub_unsigned a b =
      if b ≤ I64_MAX ∧ i64Min ≤ a - b ∧ a - b ≤ i64Max then some (a - b) else none := by
  simp only [checked_sub_unsigned, checked_sub_i64, I64_MAX, i64Min, i64Max]
  split_ifs <;> first | rfl | omega

/-- Closed-form evaluation of `checked_add_duration` when the `u32`
nanosecond addition cannot wrap (always the case for valid inputs). -/
theorem Timespec.checked_add_duration_eval (t : Timespec) (d : Duration)
    (hn : d.nanos + t.tv_nsec < 4294967296) :
    t.checked_add_duration d =
      if d.secs ≤ I64_MAX ∧ i64Min ≤ t.tv_sec + (d.secs : Int) ∧
          t.tv_sec + (d.secs : Int) ≤ i64Max then
        if NSEC_PER_SEC ≤ d.nanos + t.tv_nsec then
          if i64Min ≤ t.tv_sec + (d.secs : Int) + 1 ∧
              t.tv_sec + (d.secs : Int) + 1 ≤ i64Max then
            some (Timespec.new (t.tv_sec + (d.secs : Int) + 1)
              (d.nanos + t.tv_nsec - NSEC_PER_SEC))
          else none
        else some (Timespec.new (t.tv_sec + (d.secs : Int)) (d.nanos + t.tv_nsec))
      else none := by
  simp only [Timespec.checked_add_duration, Timespec.secs, Timespec.nsecs,
    Duration.as_secs, Duration.subsec_nanos]
  cases h1 : checked_add_unsigned t.tv_sec d.secs with
  | none =>
    rw [checked_add_unsigned_eq] at h1
    split_ifs at h1 with hc1
    rw [if_neg hc1]
  | some secs0 =>
    rw [checked_add_unsigned_eq] at h1
    split_ifs at h1 with hc1
    simp only [Option.some.injEq] at h1
    subst h1
    rw [if_pos hc1]
    have hmod : u32add d.nanos t.tv_nsec = d.nanos + t.tv_nsec := by
      simp only [u32add]
      omega
    simp only [hmod, checked_add_i64]
    split_ifs <;> rfl

/-- Closed-form evaluation of `checked_sub_duration` when both nanosecond
fields are below `2^31` (always the case for valid inputs), so the `i32`
casts and arithmetic cannot wrap. -/
theorem Timespec.checked_sub_duration_eval (t : Timespec) (d : Duration)
    (hn1 : t.tv_nsec < 2147483648) (hn2 : d.nanos < 1000000000) :
    t.checked_sub_duration d =
      if d.secs ≤ I64_MAX ∧ i64Min ≤ t.tv_sec - (d.secs : Int) ∧
          t.tv_sec - (d.secs : Int) ≤ i64Max then
        if t.tv_nsec < d.nanos then
          if i64Min ≤ t.tv_sec - (d.secs : Int) - 1 ∧
              t.tv_sec - (d.secs : Int) - 1 ≤ i64Max then
            some (Timespec.new (t.tv_sec - (d.secs : Int) - 1)
              (t.tv_nsec + NSEC_PER_SEC - d.nanos))
          else none
        else some (Timespec.new (t.tv_sec - (d.secs : Int)) (t.tv_nsec - d.nanos))
      else none := by
  simp only [Timespec.checked_sub_duration, Timespec.secs, Timespec.nsecs,
    Duration.as_secs, Duration.subsec_nanos]
  have e1 : i32ofU32 t.tv_nsec = (t.tv_nsec : Int) := i32ofU32_small _ (by omega)
  have e2 : i32ofU32 d.nanos = (d.nanos : Int) := i32ofU32_small _ (by omega)
  have e3 : wrapI32 ((t.tv_nsec : Int) - (d.nanos : Int)) =
      (t.tv_nsec : Int) - (d.nanos : Int) :=
    wrapI32_small _ (by omega) (by omega)
  cases h1 : checked_sub_unsigned t.tv_sec d.secs with
  | none =>
    rw [checked_sub_unsigned_eq] at h1
    split_ifs at h1 with hc1
    rw [if_neg hc1]
  | some secs0 =>
    rw [checked_sub_unsigned_eq] at h1
    split_ifs at h1 with hc1
    simp only [Option.some.injEq] at h1
    subst h1
    rw [if_pos hc1]
    simp only [e1, e2, e3, checked_sub_i64]
    by_cases hb : (t.tv_nsec : Int) - (d.nanos : Int) < 0
    · rw [if_pos hb, if_pos (show t.tv_nsec < d.nanos by omega)]
      by_cases hc : i64Min ≤ t.tv_sec - (d.secs : Int) - 1 ∧
          t.tv_sec - (d.secs : Int) - 1 ≤ i64Max
      · rw [if_pos hc, if_pos hc]
        dsimp only
        have hval : u32ofI32 (wrapI32 ((t.tv_nsec : Int) - (d.nanos : Int) +
            (NSEC_PER_SEC : Int))) = t.tv_nsec + NSEC_PER_SEC - d.nanos := by
          simp only [u32ofI32, wrapI32, NSEC_PER_SEC]
          omega
        rw [hval]
      · rw [if_neg hc, if_neg hc]
    · rw [if_neg hb, if_neg (show ¬t.tv_nsec < d.nanos by omega)]
      have hval : u32ofI32 ((t.tv_nsec : Int) - (d.nanos : Int)) =
          t.tv_nsec - d.nanos := by
        simp only [u32ofI32]
        omega
      rw [hval]

/-- Claim C3 (amended): for a `Timespec` with valid fields and a `Duration`,
`checked_add_duration` returns `none` exactly when the duration's seconds
exceed `I64_MAX` or the final seconds (including the nanosecond-carry
increment) exceed `i64Max`; otherwise it returns the exact sum with a valid
nanosecond field.  The boundary example `(i64::MAX, 0) + (1, 0)` is `none`;
the carry example `(0, 999_999_999) + (0, 2)` yields `(1, 1)` (one full
second carried, one nanosecond left over). -/
theorem claim_C3_checked_add_duration (t : Timespec) (d : Duration)
    (ht1 : i64Min ≤ t.tv_sec) (ht2 : t.tv_sec ≤ i64Max)
    (htn : t.tv_nsec < NSEC_PER_SEC) (hdn : d.nanos < NSEC_PER_SEC) :
    (t.checked_add_duration d = none ↔
      I64_MAX < d.secs ∨
        i64Max < t.tv_sec + (d.secs : Int) +
          (if NSEC_PER_SEC ≤ d.nanos + t.tv_nsec then 1 else 0)) ∧
      (∀ r, t.checked_add_duration d = some r →
        r.totalNanos = t.totalNanos + (d.totalNanos : Int) ∧
          r.tv_nsec < NSEC_PER_SEC) ∧
      (Timespec.new i64Max 0).checked_add_duration (Duration.new 1 0) = none ∧
      (Timespec.new 0 999999999).checked_add_duration (Duration.new 0 2) =
        some (Timespec.new 1 1) := by
  have hn : d.nanos + t.tv_nsec < 4294967296 := by
    simp only [NSEC_PER_SEC] at htn hdn
    omega
  rw [Timespec.checked_add_duration_eval t d hn]
  refine ⟨?_, ?_, by decide, by decide⟩
  · simp only [NSEC_PER_SEC, I64_MAX, i64Min, i64Max] at *
    split_ifs <;> simp <;> omega
  · intro r hr
    simp only [NSEC_PER_SEC, I64_MAX, i64Min, i64Max] at *
    split_ifs at hr <;> simp only [Option.some.injEq, reduceCtorEq] at hr
    all_goals
      subst hr
      simp only [Timespec.totalNanos, Duration.totalNanos, Timespec.new, NSEC_PER_SEC]
      constructor <;> omega

/-- Counterexample to C3 as stated: the claim asserts that
`Timespec::new(0, 999_999_999).checked_add_duration(Duration::new(0, 2))`
yields `Timespec::new(1, 0)`, but the code computes nanoseconds
`999_999_999 + 2 = 1_000_000_001`, carries one second and leaves one
nanosecond, yielding `Timespec::new(1, 1)`. -/
theorem claim_C3_counterexample :
    (Timespec.new 0 999999999).checked_add_duration (Duration.new 0 2) ≠
        some (Timespec.new 1 0) ∧
      (Timespec.new 0 999999999).checked_add_duration (Duration.new 0 2) =
        some (Timespec.new 1 1) := by
  decide

/-- Claim C4: for a `Timespec` with valid fields and a `Duration`,
`checked_sub_duration` returns `none` exactly when the duration's seconds
exceed `I64_MAX` or the final seconds (including the nanosecond-borrow
decrement) drop below `i64Min`; otherwise it returns the exact difference
with a valid nanosecond field.  The boundary example `(i64::MIN, 0) - (1, 0)`
is `none`; the borrow example `(1, 0) - (0, 1)` yields `(0, 999_999_999)`. -/
theorem claim_C4_checked_sub_duration (t : Timespec) (d : Duration)
    (ht1 : i64Min ≤ t.tv_sec) (ht2 : t.tv_sec ≤ i64Max)
    (htn : t.tv_nsec < NSEC_PER_SEC) (hdn : d.nanos < NSEC_PER_SEC) :
    (t.checked_sub_duration d = none ↔
      I64_MAX < d.secs ∨
        t.tv_sec - (d.secs : Int) -
          (if t.tv_nsec < d.nanos then 1 else 0) < i64Min) ∧
      (∀ r, t.checked_sub_duration d = some r →
        r.totalNanos = t.totalNanos - (d.totalNanos : Int) ∧
          r.tv_nsec < NSEC_PER_SEC) ∧
      (Timespec.new i64Min 0).checked_sub_duration (Duration.new 1 0) = none ∧
      (Timespec.new 1 0).checked_sub_duration (Duration.new 0 1) =
        some (Timespec.new 0 999999999) := by
  have hn1 : t.tv_nsec < 2147483648 := by
    simp only [NSEC_PER_SEC] at htn
    omega
  have hn2 : d.nanos < 1000000000 := by
    simp only [NSEC_PER_SEC] at hdn
    omega
  rw [Timespec.checked_sub_duration_eval t d hn1 hn2]
  refine ⟨?_, ?_, by decide, by decide⟩
  · simp only [NSEC_PER_SEC, I64_MAX, i64Min, i64Max] at *
    split_ifs <;> simp <;> omega
  · intro r hr
    simp only [NSEC_PER_SEC, I64_MAX, i64Min, i64Max] at *
    split_ifs at hr <;> simp only [Option.some.injEq, reduceCtorEq] at hr
    all_goals
      subst hr
      simp only [Timespec.totalNanos, Duration.totalNanos, Timespec.new, NSEC_PER_SEC]
      constructor <;> omega

/-- Witness for C3: the two boundary evaluations, obtained from the claim
theorem at `t = (0, 0)`, `d = (0, 0)`. -/
theorem claim_C3_witness :
    (Timespec.new i64Max 0).checked_add_duration (Duration.new 1 0) = none ∧
      (Timespec.new 0 999999999).checked_add_duration (Duration.new 0 2) =
        some (Timespec.new 1 1) :=
  (claim_C3_checked_add_duration (Timespec.new 0 0) (Duration.new 0 0)
    (by decide) (by decide) (by decide) (by decide)).2.2

/-- Witness for C4: the two boundary evaluations, obtained from the claim
theorem at `t = (0, 0)`, `d = (0, 0)`. -/
theorem claim_C4_witness :
    (Timespec.new i64Min 0).checked_sub_duration (Duration.new 1 0) = none ∧
      (Timespec.new 1 0).checked_sub_duration (Duration.new 0 1) =
        some (Timespec.new 0 999999999) :=
  (claim_C4_checked_sub_duration (Timespec.new 0 0) (Duration.new 0 0)
    (by decide) (by decide) (by decide) (by decide)).2.2

/-- Claim C5: when `checked_add_duration` succeeds on a valid `Timespec`,
subtracting the same duration from the result succeeds and returns a value
equal (in the `PartialEq` sense) to the original. -/
theorem claim_C5_add_sub_roundtrip (a : Timespec) (d : Duration) (b : Timespec)
    (ha1 : i64Min ≤ a.tv_sec) (han : a.tv_nsec < NSEC_PER_SEC)
    (hdn : d.nanos < NSEC_PER_SEC)
    (hab : a.checked_add_duration d = some b) :
    ∃ c, b.checked_sub_duration d = some c ∧ Timespec.eq c a = true := by
  have hn : d.nanos + a.tv_nsec < 4294967296 := by
    simp only [NSEC_PER_SEC] at han hdn
    omega
  rw [Timespec.checked_add_duration_eval a d hn] at hab
  simp only [NSEC_PER_SEC, I64_MAX, i64Min, i64Max] at ha1 han hdn hab ⊢
  split_ifs at hab with h1 h2 h3 <;>
    simp only [Option.some.injEq, reduceCtorEq] at hab <;>
    subst hab <;>
    rw [Timespec.checked_sub_duration_eval _ d
      (by simp only [Timespec.new]; omega) (by omega)] <;>
    simp only [Timespec.new] <;>
    simp only [NSEC_PER_SEC, I64_MAX, i64Min, i64Max] <;>
    split_ifs <;>
    first
      | (exfalso; omega)
      | (refine ⟨_, rfl, ?_⟩
         simp only [Timespec.eq, Timespec.secs, Timespec.nsecs, Timespec.new,
           Bool.and_eq_true, beq_iff_eq]
         constructor <;> omega)

/-- Witness for C5 at `A = (3, 999_999_999)`, `D = (2, 5)` (a carrying
addition followed by a borrowing subtraction). -/
theorem claim_C5_witness :
    ∃ c, (Timespec.new 6 4).checked_sub_duration (Duration.new 2 5) = some c ∧
      Timespec.eq c (Timespec.new 3 999999999) = true :=
  claim_C5_add_sub_roundtrip (Timespec.new 3 999999999) (Duration.new 2 5)
    (Timespec.new 6 4) (by decide) (by decide) (by decide) (by decide)

/-- Counterexample to C6 as stated: the claim quantifies over every
`Timespec` input, but `Timespec::new` performs no validation, and feeding
`(0, 2_000_000_000)` (a constructible value whose nanosecond field is
already out of range) to `checked_add_duration` with the zero duration
produces `Some (1, 1_000_000_000)`, whose nanosecond field is outside
`[0, 1e9)`. -/
theorem claim_C6_counterexample :
    ∃ r, (Timespec.new 0 2000000000).checked_add_duration (Duration.new 0 0) =
        some r ∧ ¬r.tv_nsec < NSEC_PER_SEC :=
  ⟨Timespec.new 1 1000000000, by decide, by decide⟩

/-- Claim C6 (amended): for inputs that satisfy the nanosecond invariant
(`Timespec` nanoseconds and `Duration` sub-second nanoseconds below 1e9),
every `Some` result of `checked_add_duration` or `checked_sub_duration`
has its nanosecond field in `[0, 1e9)`. -/
theorem claim_C6_nsec_invariant (t : Timespec) (d : Duration)
    (htn : t.tv_nsec < NSEC_PER_SEC) (hdn : d.nanos < NSEC_PER_SEC) :
    (∀ r, t.checked_add_duration d = some r → r.tv_nsec < NSEC_PER_SEC) ∧
      (∀ r, t.checked_sub_duration d = some r → r.tv_nsec < NSEC_PER_SEC) := by
  simp only [NSEC_PER_SEC] at htn hdn
  constructor <;> intro r hr
  · rw [Timespec.checked_add_duration_eval t d (by omega)] at hr
    simp only [NSEC_PER_SEC, I64_MAX, i64Min, i64Max] at hr
    split_ifs at hr <;> simp only [Option.some.injEq, reduceCtorEq] at hr <;>
      subst hr <;> simp only [Timespec.new, NSEC_PER_SEC] <;> omega
  · rw [Timespec.checked_sub_duration_eval t d (by omega) (by omega)] at hr
    simp only [NSEC_PER_SEC, I64_MAX, i64Min, i64Max] at hr
    split_ifs at hr <;> simp only [Option.some.injEq, reduceCtorEq] at hr <;>
      subst hr <;> simp only [Timespec.new, NSEC_PER_SEC] <;> omega

/-- Witness for the amended C6 at `t = (0, 999_999_999)`, `d = (0, 2)`. -/
theorem claim_C6_witness : (Timespec.new 1 1).tv_nsec < NSEC_PER_SEC :=
  (claim_C6_nsec_invariant (Timespec.new 0 999999999) (Duration.new 0 2)
    (by decide) (by decide)).1 (Timespec.new 1 1) (by decide)

/-- Claim C9: the fast-call cache is a monotonic tri-state slot.  It starts
null (`UNINIT`); a resolution step from `UNINIT` moves it to the sentinel
(`INIT_NULL`) when the vDSO lookup yields null, or to the looked-up address
otherwise; any non-`UNINIT` state is a fixed point, and the answer from a
resolved state is determined by the state alone (`none` for the sentinel,
the cached address otherwise).  The hypothesis `addr ≠ INIT_NULL` encodes
the code's assumption that the vDSO never places a symbol at address 1. -/
theorem claim_C9_cache_monotonic (addr : Nat) (haddr : addr ≠ INIT_NULL) :
    CLOCK_GETTIME_VSYSCALL_INIT = UNINIT ∧
      (addr = 0 → clock_gettime_vsyscall addr UNINIT = (INIT_NULL, none)) ∧
      (addr ≠ 0 →
        clock_gettime_vsyscall addr UNINIT = (addr, some addr) ∧
          addr ≠ UNINIT ∧ addr ≠ INIT_NULL) ∧
      (∀ s, s ≠ UNINIT →
        (clock_gettime_vsyscall addr s).1 = s ∧
          (clock_gettime_vsyscall addr s).2 =
            if s = INIT_NULL then none else some s) := by
  refine ⟨rfl, ?_, ?_, ?_⟩
  · intro h0
    simp [clock_gettime_vsyscall, UNINIT, h0]
  · intro h0
    refine ⟨?_, h0, haddr⟩
    simp [clock_gettime_vsyscall, UNINIT, h0]
  · intro s hs
    simp only [clock_gettime_vsyscall, UNINIT, INIT_NULL] at *
    split_ifs <;> simp_all

/-- Witness for C9 at `addr = 42`. -/
theorem claim_C9_witness :
    CLOCK_GETTIME_VSYSCALL_INIT = UNINIT ∧
      ((42 : Nat) = 0 → clock_gettime_vsyscall 42 UNINIT = (INIT_NULL, none)) ∧
      ((42 : Nat) ≠ 0 →
        clock_gettime_vsyscall 42 UNINIT = (42, some 42) ∧
          (42 : Nat) ≠ UNINIT ∧ (42 : Nat) ≠ INIT_NULL) ∧
      (∀ s, s ≠ UNINIT →
        (clock_gettime_vsyscall 42 s).1 = s ∧
          (clock_gettime_vsyscall 42 s).2 =
            if s = INIT_NULL then none else some s) :=
  claim_C9_cache_monotonic 42 (by decide)

end UnixClock
